import Mathlib

/-!
Verification development for the trade0 grid-trading repository.

The Python sources are shallowly embedded: prices, quantities and amounts
are exact rationals (`ℚ`), Python dicts become association lists with
overwrite-on-insert semantics, and each strategy becomes a state record
together with a step function over its lifecycle callbacks
(`on_start`, `on_quote_tick`, `on_order_filled`, `on_stop`, `reset`).
Randomness and transcendental samples (normal draws, the sinusoid samples
of the synthetic data generator) are taken as explicit input sequences.
-/

namespace Trade0

/-- Association-list lookup with decidable keys: first binding wins,
matching Python dict lookup on the maps kept by the strategies. -/
def lookupD {α β : Type} [DecidableEq α] (m : List (α × β)) (k : α) : Option β :=
  (m.find? (fun p => p.1 = k)).map (fun p => p.2)

/-- Key membership in an association list (`k in d` in Python). -/
def memKey {α β : Type} [DecidableEq α] (m : List (α × β)) (k : α) : Bool :=
  (lookupD m k).isSome

/-- Removal of a key from an association list (`d.pop(k)` side effect). -/
def eraseKey {α β : Type} [DecidableEq α] (m : List (α × β)) (k : α) : List (α × β) :=
  m.filter (fun p => p.1 ≠ k)

/-- Insertion into an association list (`d[k] = v` in Python): the key
becomes bound to `v` and any previous binding for it is dropped. -/
def insertD {α β : Type} [DecidableEq α] (m : List (α × β)) (k : α) (v : β) :
    List (α × β) :=
  (k, v) :: eraseKey m k

/-- Embedding of `np.linspace(lo, hi, n)`: `n` evenly spaced rationals from
`lo` to `hi` inclusive, value `i` being `lo + (hi - lo) * i / (n - 1)`. -/
def linspace (lo hi : ℚ) (n : ℕ) : List ℚ :=
  (List.range n).map (fun i : ℕ => lo + (hi - lo) * (i : ℚ) / ((n : ℚ) - 1))

/-- Order side enum (`nautilus_trader` `OrderSide`, as used by the strategies). -/
inductive OrderSide where
  | BUY
  | SELL
deriving DecidableEq, Repr

/-- A submitted limit order, as built by `order_factory.limit` in the
strategies: side, quantity, limit price, and the client order id
(modelled as a running natural number). -/
structure LimitOrder where
  side : OrderSide
  quantity : ℚ
  price : ℚ
  orderId : ℕ
deriving DecidableEq, Repr

/-- An `OrderFilled` event as consumed by `on_order_filled`:
`client_order_id`, `last_px`, `last_qty`, `order_side`. -/
structure FillEvent where
  client_order_id : ℕ
  last_px : ℚ
  last_qty : ℚ
  order_side : OrderSide
deriving DecidableEq, Repr

/-! ## `src/src/strategies/grid.py` — `GridStrategy` -/

/-- The configuration fields of `GridStrategyConfig` that the embedded
behavior reads (the risk/execution-tuning fields are inert in the source
and omitted; spacing is arithmetic, the variant every claim exercises). -/
structure GridStrategyConfig where
  total_amount : ℚ
  grid_levels : ℕ
  upper_price : Option ℚ
  lower_price : Option ℚ
  price_range_ratio : ℚ
deriving DecidableEq, Repr

/-- Internal state of `GridStrategy`: price bounds (mutable copies of the
config bounds), the grid price list, the `grid_orders` price→order-id map,
the `filled_grids` set, the `active_orders` order-id→price map, the
statistics counters, plus a fresh-order-id counter and the log of all
submitted orders (standing in for `submit_order` calls). -/
structure GridState where
  upper_price : Option ℚ
  lower_price : Option ℚ
  grid_prices : List ℚ
  grid_orders : List (ℚ × ℕ)
  filled_grids : List ℚ
  active_orders : List (ℕ × ℚ)
  total_trades : ℕ
  winning_trades : ℕ
  total_pnl : ℚ
  nextOrderId : ℕ
  submitted : List LimitOrder
deriving DecidableEq, Repr

/-- State of a freshly constructed `GridStrategy` (`__init__`). -/
def initGridState (cfg : GridStrategyConfig) : GridState :=
  { upper_price := cfg.upper_price
    lower_price := cfg.lower_price
    grid_prices := []
    grid_orders := []
    filled_grids := []
    active_orders := []
    total_trades := 0
    winning_trades := 0
    total_pnl := 0
    nextOrderId := 0
    submitted := [] }

/-- Embedding of `GridStrategy._place_grid_order`: quantity is
`amount / price` for both sides; the order is submitted and recorded in
`grid_orders` and `active_orders`. -/
def place_grid_order (s : GridState) (price : ℚ) (side : OrderSide) (amount : ℚ) :
    GridState :=
  let quantity := amount / price
  let oid := s.nextOrderId
  { s with
    submitted := s.submitted ++ [⟨side, quantity, price, oid⟩]
    grid_orders := insertD s.grid_orders price oid
    active_orders := insertD s.active_orders oid price
    nextOrderId := oid + 1 }

/-- Embedding of `GridStrategy._find_next_grid_price`: scanning the grid
list in ascending order for the up direction (a price strictly above
`current_price * 1.001` not present in `grid_orders`), or in reverse for
the down direction (strictly below `current_price * 0.999`). -/
def find_next_grid_price (grid_prices : List ℚ) (grid_orders : List (ℚ × ℕ))
    (current_price : ℚ) (up : Bool) : Option ℚ :=
  if up then
    grid_prices.find?
      (fun p => decide (current_price * (1001/1000) < p) && !(memKey grid_orders p))
  else
    grid_prices.reverse.find?
      (fun p => decide (p < current_price * (999/1000)) && !(memKey grid_orders p))

/-- Embedding of `GridStrategy.on_order_filled`: when the filled order id is
known in `active_orders`, pop it, count the trade, and place the opposite
replacement at the next eligible grid price — for a BUY fill a SELL with
`amount = filled_qty * target_price`, for a SELL fill a BUY with
`amount = filled_qty * filled_price`. -/
def on_order_filled (s : GridState) (e : FillEvent) : GridState :=
  match lookupD s.active_orders e.client_order_id with
  | none => s
  | some _ =>
    let s1 : GridState :=
      { s with
        active_orders := eraseKey s.active_orders e.client_order_id
        total_trades := s.total_trades + 1 }
    match e.order_side with
    | OrderSide.BUY =>
      match find_next_grid_price s1.grid_prices s1.grid_orders e.last_px true with
      | some target => place_grid_order s1 target OrderSide.SELL (e.last_qty * target)
      | none => s1
    | OrderSide.SELL =>
      match find_next_grid_price s1.grid_prices s1.grid_orders e.last_px false with
      | some target => place_grid_order s1 target OrderSide.BUY (e.last_qty * e.last_px)
      | none => s1

/-- Embedding of `GridStrategy._setup_initial_orders`: per-grid capital is
`total_amount / grid_levels`; grid prices within relative distance 0.001 of
the current price are skipped; below-price levels get BUY orders, above-price
levels get SELL orders, both sized from the per-grid capital. -/
def setup_initial_orders (cfg : GridStrategyConfig) (s : GridState)
    (current_price : ℚ) : GridState :=
  let amount_per_grid := cfg.total_amount / (cfg.grid_levels : ℚ)
  s.grid_prices.foldl
    (fun st gp =>
      if |gp - current_price| / current_price < 1/1000 then st
      else if gp < current_price then
        place_grid_order st gp OrderSide.BUY amount_per_grid
      else if current_price < gp then
        place_grid_order st gp OrderSide.SELL amount_per_grid
      else st)
    s

/-- Embedding of `GridStrategy._initialize_grid` in the case where a quote
is cached: mid price from the quote, auto-derivation of missing bounds from
`price_range_ratio`, arithmetic grid price computation
(`_calculate_grid_prices`, arithmetic branch), then initial order setup. -/
def initialize_grid (cfg : GridStrategyConfig) (s : GridState) (bid ask : ℚ) :
    GridState :=
  let current_price := (ask + bid) / 2
  let bounds : ℚ × ℚ :=
    match s.upper_price, s.lower_price with
    | some u, some l => (u, l)
    | _, _ =>
      let price_range := current_price * cfg.price_range_ratio
      (current_price + price_range / 2, current_price - price_range / 2)
  let s1 : GridState :=
    { s with
      upper_price := some bounds.1
      lower_price := some bounds.2
      grid_prices := linspace bounds.2 bounds.1 cfg.grid_levels }
  setup_initial_orders cfg s1 current_price

/-- Embedding of `GridStrategy._calculate_grid_prices`, arithmetic branch:
`np.linspace(lower, upper, levels)` (the geometric branch exponentiates a
linspace of logarithms and is not exercised by any claim). -/
def calculate_grid_prices_arith (lower upper : ℚ) (levels : ℕ) : List ℚ :=
  linspace lower upper levels

/-- Embedding of `GridStrategy.reset`: clears the three maps and zeroes the
statistics counters; the grid price list itself is not cleared. -/
def gridReset (s : GridState) : GridState :=
  { s with
    grid_orders := []
    filled_grids := []
    active_orders := []
    total_trades := 0
    winning_trades := 0
    total_pnl := 0 }

/-- The win rate logged by `GridStrategy.on_stop`:
`winning_trades / max(total_trades, 1)`. -/
def on_stop_win_rate (s : GridState) : ℚ :=
  (s.winning_trades : ℚ) / (max s.total_trades 1 : ℕ)

/-- Lifecycle events delivered to a `GridStrategy` by the host engine.
`initGrid` is the grid-initialization timer callback firing with a cached
quote; `quoteTick` and `stop` mutate no strategy-internal state in the
source (they only log and cancel engine-side orders). -/
inductive GridEvent where
  | initGrid (bid ask : ℚ)
  | quoteTick (bid ask : ℚ)
  | fill (e : FillEvent)
  | stop
  | doReset
deriving DecidableEq, Repr

/-- One lifecycle callback dispatch on a `GridStrategy`. -/
def gridStep (cfg : GridStrategyConfig) (s : GridState) : GridEvent → GridState
  | GridEvent.initGrid bid ask => initialize_grid cfg s bid ask
  | GridEvent.quoteTick _ _ => s
  | GridEvent.fill e => on_order_filled s e
  | GridEvent.stop => s
  | GridEvent.doReset => gridReset s

/-- A full run of `GridStrategy`: construction followed by an arbitrary
sequence of lifecycle callbacks. -/
def runGrid (cfg : GridStrategyConfig) (evs : List GridEvent) : GridState :=
  evs.foldl (gridStep cfg) (initGridState cfg)

/-! ## `src/src/strategies/simple_grid.py` — `SimpleGridStrategy` -/

/-- Configuration fields of `SimpleGridStrategyConfig`. -/
structure SimpleGridStrategyConfig where
  total_amount : ℚ
  upper_price : ℚ
  lower_price : ℚ
  grid_levels : ℕ
deriving DecidableEq, Repr

/-- Internal state of `SimpleGridStrategy`: the grid price list, the
`orders_placed` flag, a fresh-order-id counter and the log of all
submitted orders. -/
structure SimpleGridState where
  grid_prices : List ℚ
  orders_placed : Bool
  nextOrderId : ℕ
  submitted : List LimitOrder
deriving DecidableEq, Repr

/-- Embedding of `SimpleGridStrategy.on_start` (state after construction and
the start callback): `np.linspace(lower_price, upper_price, grid_levels)`,
flag clear, nothing submitted. -/
def simple_on_start (cfg : SimpleGridStrategyConfig) : SimpleGridState :=
  { grid_prices := linspace cfg.lower_price cfg.upper_price cfg.grid_levels
    orders_placed := false
    nextOrderId := 0
    submitted := [] }

/-- Embedding of `SimpleGridStrategy._place_initial_orders`: per-grid capital
is `total_amount / grid_levels`; grid prices within 10 quote-currency units
of the mid price are skipped; only grid prices below the mid get BUY limit
orders sized `amount_per_grid / grid_price`. No SELL branch exists. -/
def place_initial_orders (cfg : SimpleGridStrategyConfig) (s : SimpleGridState)
    (bid ask : ℚ) : SimpleGridState :=
  let current_price := (ask + bid) / 2
  let amount_per_grid := cfg.total_amount / (cfg.grid_levels : ℚ)
  s.grid_prices.foldl
    (fun st gp =>
      if |gp - current_price| < 10 then st
      else if gp < current_price then
        { st with
          submitted :=
            st.submitted ++ [⟨OrderSide.BUY, amount_per_grid / gp, gp, st.nextOrderId⟩]
          nextOrderId := st.nextOrderId + 1 }
      else st)
    s

/-- Embedding of `SimpleGridStrategy.on_quote_tick`: on the first quote only
(guarded by `orders_placed`), set the flag and place the initial orders. -/
def simple_on_quote_tick (cfg : SimpleGridStrategyConfig) (s : SimpleGridState)
    (bid ask : ℚ) : SimpleGridState :=
  if s.orders_placed then s
  else place_initial_orders cfg { s with orders_placed := true } bid ask

/-- Embedding of `SimpleGridStrategy.reset`: clears only the
`orders_placed` flag. -/
def simpleReset (s : SimpleGridState) : SimpleGridState :=
  { s with orders_placed := false }

/-- Lifecycle events delivered to a `SimpleGridStrategy`. `fill` and `stop`
mutate no strategy-internal state in the source (`on_order_filled` only
logs; `on_stop` cancels engine-side orders). -/
inductive SimpleEvent where
  | quote (bid ask : ℚ)
  | fill (e : FillEvent)
  | stop
  | doReset
deriving DecidableEq, Repr

/-- One lifecycle callback dispatch on a `SimpleGridStrategy`. -/
def simpleStep (cfg : SimpleGridStrategyConfig) (s : SimpleGridState) :
    SimpleEvent → SimpleGridState
  | SimpleEvent.quote bid ask => simple_on_quote_tick cfg s bid ask
  | SimpleEvent.fill _ => s
  | SimpleEvent.stop => s
  | SimpleEvent.doReset => simpleReset s

/-- A full run of `SimpleGridStrategy`: start followed by an arbitrary
sequence of lifecycle callbacks. -/
def runSimple (cfg : SimpleGridStrategyConfig) (evs : List SimpleEvent) :
    SimpleGridState :=
  evs.foldl (simpleStep cfg) (simple_on_start cfg)

/-! ## `src/run_grid_strategy.py` — live launcher `main` -/

/-- Observable effects of the live launcher, in the order `main` (and the
`run_grid_strategy` / `create_trading_node_config` calls it makes) performs
them. `loadConfigFile` is the YAML read, `lookupEnvVar` the credential
lookups, `networkRun` the trading-node construction and run. -/
inductive LaunchEffect where
  | warnMainnet
  | promptConfirm
  | printCancelled
  | checkConfigFile
  | printConfigMissing
  | makeLogsDir
  | loadConfigFile
  | lookupEnvVar
  | raiseMissingCreds
  | networkRun
deriving DecidableEq, Repr

/-- Continuation of `main` in `run_grid_strategy.py` after the mainnet
gate: config-file existence check, logs directory creation, then
`run_grid_strategy` (YAML load, credential lookups raising on absence,
trading-node run). -/
def launcherAfterConfirm (configExists credsPresent : Bool) : List LaunchEffect :=
  if !configExists then
    [LaunchEffect.checkConfigFile, LaunchEffect.printConfigMissing]
  else
    [LaunchEffect.checkConfigFile, LaunchEffect.makeLogsDir,
     LaunchEffect.loadConfigFile, LaunchEffect.lookupEnvVar] ++
      (if credsPresent then [LaunchEffect.networkRun]
       else [LaunchEffect.raiseMissingCreds])

/-- Embedding of `main` in `run_grid_strategy.py` after argument parsing:
`use_testnet = not mainnet`; on the mainnet path a warning and confirmation
prompt come first and `confirm.lower() != "yes"` aborts; then the config
path is checked, the logs directory created, and `run_grid_strategy` loads
the YAML, builds the node config (environment-variable lookups, raising on
missing credentials) and runs the node. Returns the effect trace. -/
def launcherMain (mainnetFlag : Bool) (confirmInput : String)
    (configExists : Bool) (credsPresent : Bool) : List LaunchEffect :=
  let use_testnet := !mainnetFlag
  if !use_testnet then
    if confirmInput.toLower ≠ "yes" then
      [LaunchEffect.warnMainnet, LaunchEffect.promptConfirm, LaunchEffect.printCancelled]
    else
      [LaunchEffect.warnMainnet, LaunchEffect.promptConfirm] ++
        launcherAfterConfirm configExists credsPresent
  else
    launcherAfterConfirm configExists credsPresent

/-! ## `src/backtest_with_real_data.py` — grid-bound suggestion -/

/-- Embedding of the suggested grid bounds of `analyze_price_range`
(lower, upper): mean minus and plus 1.5 standard deviations; the mean and
standard deviation of the mid-price series are computed upstream by pandas
and enter here as inputs. -/
def suggestedBounds (mean std : ℚ) : ℚ × ℚ :=
  (mean - 3/2 * std, mean + 3/2 * std)

/-- Embedding of the bounds actually used by `run_backtest_with_real_data`
when building the `SimpleGridStrategyConfig` (lower, upper):
`upper = min(suggested_upper, mean + 500)`,
`lower = max(suggested_lower, mean - 500)`. -/
def usedBounds (mean std : ℚ) : ℚ × ℚ :=
  (max (suggestedBounds mean std).1 (mean - 500),
   min (suggestedBounds mean std).2 (mean + 500))

/-! ## `src/prepare_data.py` — synthetic quote data generator -/

/-- A quote record as assembled by `generate_forex_data`: timestamp (epoch
seconds), bid/ask prices and sizes. -/
structure QuoteRow where
  ts : ℤ
  bid_price : ℚ
  ask_price : ℚ
  bid_size : ℚ
  ask_size : ℚ
deriving DecidableEq, Repr

/-- Number of points of `pd.date_range(start, end, freq=30s)` over a span of
`days` whole days: one point every 30 seconds plus the inclusive endpoint,
`days * 86400 / 30 + 1`. -/
def forexNumPoints (days : ℕ) : ℕ :=
  days * 86400 / 30 + 1

/-- Base price by symbol in `generate_forex_data`: 42000.0 for BTCUSDT,
1.0850 otherwise. -/
def basePriceOf (symbol : String) : ℚ :=
  if symbol = "BTCUSDT" then 42000 else 217/200

/-- Fixed spread by symbol in `generate_forex_data`: 0.0001 for EURUSD,
1.0 otherwise. -/
def spreadOf (symbol : String) : ℚ :=
  if symbol = "EURUSD" then 1/10000 else 1

/-- Cumulative sum of the first `i + 1` random price-change draws
(`np.cumsum(price_changes)` at index `i`). -/
def cumsum (changes : ℕ → ℚ) (i : ℕ) : ℚ :=
  ((List.range (i + 1)).map changes).sum

/-- Price at index `i` in `generate_forex_data`: the cumulative changes are
dampened once by `(1 - 0.01)`, scaled onto the base price, then the
sinusoidal cycle `sin(linspace(0, 4π, n))[i] * base * 0.02` is added; the
sinusoid samples enter as the input sequence `sinSamples`. -/
def forexPrice (symbol : String) (changes sinSamples : ℕ → ℚ) (i : ℕ) : ℚ :=
  basePriceOf symbol * (1 + cumsum changes i * (1 - 1/100)) +
    sinSamples i * basePriceOf symbol * (1/50)

/-- Row `i` of the DataFrame as first constructed by `generate_forex_data`
(before the session-volatility noise layer): timestamps every 30 seconds
from `endSec - days*86400`, bid and ask at half a spread below and above
the price, sizes from the uniform draws. -/
def forexBaseRow (symbol : String) (days : ℕ) (endSec : ℤ)
    (changes sinSamples bidSizes askSizes : ℕ → ℚ) (i : ℕ) : QuoteRow :=
  { ts := endSec - (days : ℤ) * 86400 + 30 * (i : ℤ)
    bid_price := forexPrice symbol changes sinSamples i - spreadOf symbol / 2
    ask_price := forexPrice symbol changes sinSamples i + spreadOf symbol / 2
    bid_size := bidSizes i
    ask_size := askSizes i }

/-- The DataFrame as first constructed by `generate_forex_data`, before the
session-volatility noise layer. -/
def forexBaseRows (symbol : String) (days : ℕ) (endSec : ℤ)
    (changes sinSamples bidSizes askSizes : ℕ → ℚ) : List QuoteRow :=
  (List.range (forexNumPoints days)).map
    (forexBaseRow symbol days endSec changes sinSamples bidSizes askSizes)

/-- Hour of day of an epoch-seconds timestamp (`df.index.hour`). -/
def hourOf (ts : ℤ) : ℤ :=
  (ts / 3600) % 24

/-- Session volatility of `generate_forex_data`: 1.5 during hours 8–16
inclusive, 0.7 otherwise. -/
def sessionVolAt (ts : ℤ) : ℚ :=
  if 8 ≤ hourOf ts ∧ hourOf ts ≤ 16 then 3/2 else 7/10

/-- Embedding of `generate_forex_data`: the constructed rows with the final
session-volatility noise layer applied independently to bid and ask, the
normal noise draws entering as the input sequences `noiseBid`/`noiseAsk`. -/
def generate_forex_data (symbol : String) (days : ℕ) (endSec : ℤ)
    (changes sinSamples bidSizes askSizes noiseBid noiseAsk : ℕ → ℚ) :
    List QuoteRow :=
  (List.range (forexNumPoints days)).map (fun i =>
    let r := forexBaseRow symbol days endSec changes sinSamples bidSizes askSizes i
    { r with
      bid_price := r.bid_price * (1 + noiseBid i * sessionVolAt r.ts)
      ask_price := r.ask_price * (1 + noiseAsk i * sessionVolAt r.ts) })

/-! ## `src/src/data/download_multi_source_data.py` — fallback chain -/

/-- The four market-data providers, in the fixed order `main` tries them. -/
inductive Provider where
  | cryptocompare
  | coingecko
  | kraken
  | coinbase
deriving DecidableEq, Repr

/-- A raw CryptoCompare histominute row (the fields the converter reads;
Python's `open`/`high`/`low`/`close` become `openP` etc. here). -/
structure CryptoCompareRow where
  time : ℤ
  openP : ℚ
  highP : ℚ
  lowP : ℚ
  closeP : ℚ
  volumefrom : ℚ
deriving DecidableEq, Repr

/-- A raw Kraken OHLC row: time, open, high, low, close, vwap, volume, count. -/
structure KrakenRow where
  time : ℤ
  openP : ℚ
  highP : ℚ
  lowP : ℚ
  closeP : ℚ
  vwap : ℚ
  volume : ℚ
  count : ℕ
deriving DecidableEq, Repr

/-- A raw Coinbase candle row: time, low, high, open, close, volume. -/
structure CoinbaseRow where
  time : ℤ
  lowP : ℚ
  highP : ℚ
  openP : ℚ
  closeP : ℚ
  volume : ℚ
deriving DecidableEq, Repr

/-- A normalized OHLCV row (the common 5-column table all converters
produce, indexed by timestamp). -/
structure OhlcvRow where
  ts : ℤ
  openP : ℚ
  highP : ℚ
  lowP : ℚ
  closeP : ℚ
  volume : ℚ
deriving DecidableEq, Repr

/-- Embedding of `convert_cryptocompare_to_df`: rename `volumefrom` to
`volume`, keep the OHLC columns. -/
def convert_cryptocompare_to_df (data : List CryptoCompareRow) : List OhlcvRow :=
  data.map (fun r => ⟨r.time, r.openP, r.highP, r.lowP, r.closeP, r.volumefrom⟩)

/-- Embedding of `convert_coingecko_to_df`: each (timestamp, price) pair
becomes a degenerate OHLCV row with open=high=low=close=price, volume=0. -/
def convert_coingecko_to_df (data : List (ℤ × ℚ)) : List OhlcvRow :=
  data.map (fun r => ⟨r.1, r.2, r.2, r.2, r.2, 0⟩)

/-- Embedding of `convert_kraken_to_df`: keep the OHLCV columns. -/
def convert_kraken_to_df (data : List KrakenRow) : List OhlcvRow :=
  data.map (fun r => ⟨r.time, r.openP, r.highP, r.lowP, r.closeP, r.volume⟩)

/-- Embedding of `convert_coinbase_to_df`: reorder the columns to OHLCV. -/
def convert_coinbase_to_df (data : List CoinbaseRow) : List OhlcvRow :=
  data.map (fun r => ⟨r.time, r.openP, r.highP, r.lowP, r.closeP, r.volume⟩)

/-- Python truthiness of a downloader result: `None` (error) and the empty
list are falsy, a non-empty data list is truthy. -/
def truthy {α : Type} : Option (List α) → Bool
  | none => false
  | some l => !l.isEmpty

/-- Outcome of `main` in the multi-source downloader: which providers were
attempted (in order), the converted DataFrame of the chosen provider (if
any), the output files written, and whether the failure diagnostic with
remediation suggestions was printed. -/
structure MultiSourceOutcome where
  attempted : List Provider
  df : Option (List OhlcvRow)
  written : List String
  diagnostic : Bool
deriving DecidableEq, Repr

/-- The three output files `main` persists on success. -/
def outputPaths : List String :=
  ["nautilus_data/historical/BTCUSDT_ohlc.csv",
   "nautilus_data/historical/BTCUSDT_quotes.csv",
   "nautilus_data/historical/BTCUSDT_quotes.parquet"]

/-- Tail of `main` after the fallback chain: with `success` set and a
converted `df`, the three files are written when `df` is non-empty,
otherwise the diagnostic is printed and nothing is written. -/
def finishDownload (attempted : List Provider) (df : List OhlcvRow) :
    MultiSourceOutcome :=
  if df.isEmpty then ⟨attempted, some df, [], true⟩
  else ⟨attempted, some df, outputPaths, false⟩

/-- Embedding of `main` in `download_multi_source_data.py`: the strict
fallback chain CryptoCompare → CoinGecko → Kraken → Coinbase, each later
provider attempted only while `success` is still false, followed by the
persist-or-diagnose tail. -/
def multi_source_main (cc : Option (List CryptoCompareRow))
    (cg : Option (List (ℤ × ℚ))) (kr : Option (List KrakenRow))
    (cb : Option (List CoinbaseRow)) : MultiSourceOutcome :=
  if truthy cc then
    finishDownload [Provider.cryptocompare] (convert_cryptocompare_to_df (cc.getD []))
  else if truthy cg then
    finishDownload [Provider.cryptocompare, Provider.coingecko]
      (convert_coingecko_to_df (cg.getD []))
  else if truthy kr then
    finishDownload [Provider.cryptocompare, Provider.coingecko, Provider.kraken]
      (convert_kraken_to_df (kr.getD []))
  else if truthy cb then
    finishDownload
      [Provider.cryptocompare, Provider.coingecko, Provider.kraken, Provider.coinbase]
      (convert_coinbase_to_df (cb.getD []))
  else
    ⟨[Provider.cryptocompare, Provider.coingecko, Provider.kraken, Provider.coinbase],
     none, [], true⟩

/-! ## Claim-comparison definition and concrete scenarios -/

/-- Replacement-price selection as the fill round-trip claim words it for a
BUY fill: the first grid price (ascending scan) strictly above the
threshold at which no order is currently active, i.e. no entry of
`active_orders` maps to it. This is to be compared with
`find_next_grid_price`, which instead skips every price recorded in
`grid_orders`. -/
def claimedNextPriceUp (grid_prices : List ℚ) (active_orders : List (ℕ × ℚ))
    (threshold : ℚ) : Option ℚ :=
  grid_prices.find?
    (fun p => decide (threshold < p) && !(active_orders.any (fun a => decide (a.2 = p))))

/-- Scenario for the BUY-side fill round-trip: a 3-level grid over
[100, 120] initialized at mid price 105 (BUY at 100, SELL at 110 and 120),
after which the SELL at 110 (order id 1) fills. -/
def c1cfg : GridStrategyConfig := ⟨300, 3, some 120, some 100, 1/10⟩

/-- State of the `c1cfg` strategy after grid initialization and the fill of
the SELL order at 110. -/
def c1state : GridState :=
  runGrid c1cfg
    [GridEvent.initGrid (209/2) (211/2), GridEvent.fill ⟨1, 110, 1, OrderSide.SELL⟩]

/-- The subsequent BUY fill at price 100 (order id 0) in the `c1` scenario. -/
def c1fill : FillEvent := ⟨0, 100, 1, OrderSide.BUY⟩

/-- Scenario for the SELL-side fill round-trip: a 3-level grid over
[100, 120] initialized at mid price 110 (the 110 level is skipped as too
close, so BUY at 100 and SELL at 120). -/
def c2cfg : GridStrategyConfig := ⟨300, 3, some 120, some 100, 1/10⟩

/-- State of the `c2cfg` strategy after grid initialization at mid 110. -/
def c2state : GridState :=
  runGrid c2cfg [GridEvent.initGrid (219/2) (221/2)]

/-- The SELL fill at price 120 (order id 1) in the `c2` scenario. -/
def c2fill : FillEvent := ⟨1, 120, 1, OrderSide.SELL⟩

/-- The Simple Grid configuration of the claim: bounds [41500, 42500] with
5 levels, capital left as a parameter. -/
def c6cfg (ta : ℚ) : SimpleGridStrategyConfig := ⟨ta, 42500, 41500, 5⟩

/-- A quote whose mid price is 42000 (bid 41999.5, ask 42000.5). -/
def c6quote : SimpleEvent := SimpleEvent.quote (83999/2) (84001/2)

/-- Witness state for the BUY-side round-trip: grid [100, 110], one active
BUY order (id 0) resting at 100, nothing recorded at 110. -/
def w1state : GridState :=
  { upper_price := some 110
    lower_price := some 100
    grid_prices := [100, 110]
    grid_orders := [(100, 0)]
    filled_grids := []
    active_orders := [(0, 100)]
    total_trades := 0
    winning_trades := 0
    total_pnl := 0
    nextOrderId := 1
    submitted := [⟨OrderSide.BUY, 3, 100, 0⟩] }

/-- The BUY fill of the `w1state` witness: order id 0 fills at 100 for
quantity 3. -/
def w1fill : FillEvent := ⟨0, 100, 3, OrderSide.BUY⟩

/-- Witness state for the SELL-side round-trip: grid [100, 110, 120], one
active SELL order (id 0) resting at 120, nothing recorded below. -/
def w2state : GridState :=
  { upper_price := some 120
    lower_price := some 100
    grid_prices := [100, 110, 120]
    grid_orders := [(120, 0)]
    filled_grids := []
    active_orders := [(0, 120)]
    total_trades := 0
    winning_trades := 0
    total_pnl := 0
    nextOrderId := 1
    submitted := [⟨OrderSide.SELL, 2, 120, 0⟩] }

/-- The SELL fill of the `w2state` witness: order id 0 fills at 120 for
quantity 2. -/
def w2fill : FillEvent := ⟨0, 120, 2, OrderSide.SELL⟩

/-- The all-zero draw sequence, used to instantiate the random inputs of
the synthetic data generator in concrete witnesses. -/
def zeroSeq : ℕ → ℚ := fun _ => 0

/-- A single raw CryptoCompare row used in concrete witnesses. -/
def ccRow0 : CryptoCompareRow := ⟨0, 1, 2, 1, 2, 3⟩

/-! ## Helper lemmas -/

/-- A successful `find?` on a `Pairwise`-related list is related to every
other satisfying element further down: the found element is the scan-first
one. -/
theorem find?_pairwise_rel {α : Type} {r : α → α → Prop} {p : α → Bool} :
    ∀ {l : List α}, l.Pairwise r → ∀ {t : α}, l.find? p = some t →
      ∀ x ∈ l, p x = true → t = x ∨ r t x := by
  intro l
  induction l with
  | nil => intro _ t ht; simp [List.find?] at ht
  | cons a l ih =>
    intro hp t ht x hx hpx
    rcases List.pairwise_cons.mp hp with ⟨ha, hl⟩
    by_cases hpa : p a = true
    · rw [List.find?_cons_of_pos _ hpa] at ht
      cases ht
      rcases List.mem_cons.mp hx with rfl | hxl
      · exact Or.inl rfl
      · exact Or.inr (ha x hxl)
    · rw [List.find?_cons_of_neg _ (by simpa using hpa)] at ht
      rcases List.mem_cons.mp hx with rfl | hxl
      · exact absurd hpx hpa
      · exact ih hl ht x hxl hpx

/-- `place_grid_order` leaves the winning-trade counter unchanged. -/
theorem place_grid_order_winning (s : GridState) (price : ℚ) (side : OrderSide)
    (amount : ℚ) : (place_grid_order s price side amount).winning_trades =
      s.winning_trades := rfl

/-- `_setup_initial_orders` leaves the winning-trade counter unchanged. -/
theorem setup_initial_orders_winning (cfg : GridStrategyConfig) (s : GridState)
    (cp : ℚ) : (setup_initial_orders cfg s cp).winning_trades = s.winning_trades := by
  simp only [setup_initial_orders]
  generalize s.grid_prices = l
  induction l generalizing s with
  | nil => rfl
  | cons a l ih =>
    rw [List.foldl_cons, ih]
    split_ifs <;> rfl

/-- No lifecycle callback of `GridStrategy` ever increments
`winning_trades`: it can only stay where it was or be reset to zero. -/
theorem gridStep_winning (cfg : GridStrategyConfig) (s : GridState)
    (ev : GridEvent) (h : s.winning_trades = 0) :
    (gridStep cfg s ev).winning_trades = 0 := by
  cases ev with
  | initGrid bid ask =>
    simpa [gridStep, initialize_grid, setup_initial_orders_winning] using h
  | quoteTick bid ask => exact h
  | fill e =>
    rcases hl : lookupD s.active_orders e.client_order_id with _ | gp
    · simpa [gridStep, on_order_filled, hl] using h
    · cases hside : e.order_side with
      | BUY =>
        rcases hf : find_next_grid_price s.grid_prices s.grid_orders e.last_px true
          with _ | t <;>
          simpa [gridStep, on_order_filled, hl, hside, hf, place_grid_order] using h
      | SELL =>
        rcases hf : find_next_grid_price s.grid_prices s.grid_orders e.last_px false
          with _ | t <;>
          simpa [gridStep, on_order_filled, hl, hside, hf, place_grid_order] using h
  | stop => exact h
  | doReset => rfl

/-- Winning trades stay at zero across any callback sequence. -/
theorem runGrid_winning_aux (cfg : GridStrategyConfig) :
    ∀ (evs : List GridEvent) (s : GridState), s.winning_trades = 0 →
      (evs.foldl (gridStep cfg) s).winning_trades = 0 := by
  intro evs
  induction evs with
  | nil => intro s h; exact h
  | cons ev evs ih =>
    intro s h
    rw [List.foldl_cons]
    exact ih _ (gridStep_winning cfg s ev h)

/-- The property C4 states: for every execution of the Grid Strategy (any
sequence of lifecycle callbacks after construction), `winning_trades` is
still 0, so the win rate `on_stop` reports, `winning_trades /
max(total_trades, 1)`, equals 0. -/
theorem grid_win_rate_always_zero (cfg : GridStrategyConfig)
    (evs : List GridEvent) :
    (runGrid cfg evs).winning_trades = 0 ∧ on_stop_win_rate (runGrid cfg evs) = 0 := by
  have h : (runGrid cfg evs).winning_trades = 0 :=
    runGrid_winning_aux cfg evs (initGridState cfg) rfl
  exact ⟨h, by simp [on_stop_win_rate, h]⟩

/-- Removing one key leaves lookups of other keys unchanged. -/
theorem find?_eraseKey_of_ne {α β : Type} [DecidableEq α] (m : List (α × β))
    {k p : α} (h : p ≠ k) :
    List.find? (fun q => decide (q.1 = p)) (eraseKey m k) =
      List.find? (fun q => decide (q.1 = p)) m := by
  induction m with
  | nil => rfl
  | cons a m ih =>
    by_cases hk : a.1 = k
    · have hap : ¬(a.1 = p) := fun hc => h ((hc ▸ hk : p = k))
      have he : eraseKey (a :: m) k = eraseKey m k := by
        simp [eraseKey, hk]
      rw [he, ih, List.find?_cons_of_neg _ (by simpa using hap)]
    · have he : eraseKey (a :: m) k = a :: eraseKey m k := by
        simp [eraseKey, hk]
      rw [he]
      by_cases hap : a.1 = p
      · rw [List.find?_cons_of_pos _ (by rw [decide_eq_true_eq]; exact hap),
          List.find?_cons_of_pos _ (by rw [decide_eq_true_eq]; exact hap)]
      · rw [List.find?_cons_of_neg _ (by simpa using hap),
          List.find?_cons_of_neg _ (by simpa using hap)]
        exact ih

/-- Lookup after dict insertion: the inserted key maps to the new value,
every other key is unchanged. -/
theorem lookupD_insertD {α β : Type} [DecidableEq α] (m : List (α × β))
    (k p : α) (v : β) :
    lookupD (insertD m k v) p = if p = k then some v else lookupD m p := by
  by_cases h : p = k
  · subst h
    simp [insertD, lookupD]
  · simp only [insertD, lookupD, if_neg h]
    rw [List.find?_cons_of_neg _ (by simpa using fun hc => h hc.symm)]
    rw [find?_eraseKey_of_ne m h]

/-- Key membership survives dict insertion. -/
theorem memKey_insertD_of_memKey {α β : Type} [DecidableEq α]
    (m : List (α × β)) (k p : α) (v : β) (h : memKey m p = true) :
    memKey (insertD m k v) p = true := by
  simp only [memKey, lookupD_insertD]
  split_ifs with hpk
  · rfl
  · exact h

/-- `_setup_initial_orders` only adds entries to `grid_orders`. -/
theorem setup_initial_orders_memKey (cfg : GridStrategyConfig) (s : GridState)
    (cp p : ℚ) (h : memKey s.grid_orders p = true) :
    memKey (setup_initial_orders cfg s cp).grid_orders p = true := by
  simp only [setup_initial_orders]
  generalize s.grid_prices = l
  induction l generalizing s with
  | nil => exact h
  | cons a l ih =>
    rw [List.foldl_cons]
    split_ifs with h1 h2 h3
    · exact ih s h
    · exact ih _ (memKey_insertD_of_memKey _ _ _ _ h)
    · exact ih _ (memKey_insertD_of_memKey _ _ _ _ h)
    · exact ih s h

/-- `on_order_filled` never removes an entry from `grid_orders`. -/
theorem on_order_filled_memKey (s : GridState) (e : FillEvent) (p : ℚ)
    (h : memKey s.grid_orders p = true) :
    memKey (on_order_filled s e).grid_orders p = true := by
  rcases hl : lookupD s.active_orders e.client_order_id with _ | gp
  · simpa [on_order_filled, hl] using h
  · cases hside : e.order_side with
    | BUY =>
      rcases hf : find_next_grid_price s.grid_prices s.grid_orders e.last_px true
        with _ | t
      · simpa [on_order_filled, hl, hside, hf] using h
      · simpa [on_order_filled, hl, hside, hf, place_grid_order] using
          memKey_insertD_of_memKey s.grid_orders t p s.nextOrderId h
    | SELL =>
      rcases hf : find_next_grid_price s.grid_prices s.grid_orders e.last_px false
        with _ | t
      · simpa [on_order_filled, hl, hside, hf] using h
      · simpa [on_order_filled, hl, hside, hf, place_grid_order] using
          memKey_insertD_of_memKey s.grid_orders t p s.nextOrderId h

/-- The property C10 states: a grid price that has an entry in `grid_orders`
keeps it across every lifecycle callback except `reset` (in particular
`on_order_filled` removes fills from `active_orders` only), the
replacement-price search `_find_next_grid_price` never selects a price
present in `grid_orders`, and only `reset` clears the map. -/
theorem grid_price_single_use :
    (∀ (cfg : GridStrategyConfig) (s : GridState) (ev : GridEvent) (p : ℚ),
      ev ≠ GridEvent.doReset → memKey s.grid_orders p = true →
      memKey (gridStep cfg s ev).grid_orders p = true)
    ∧ (∀ (gps : List ℚ) (gos : List (ℚ × ℕ)) (cp : ℚ) (up : Bool) (t : ℚ),
      find_next_grid_price gps gos cp up = some t → memKey gos t = false)
    ∧ (∀ s : GridState, (gridReset s).grid_orders = []) := by
  refine ⟨?_, ?_, fun s => rfl⟩
  · intro cfg s ev p hev h
    cases ev with
    | initGrid bid ask =>
      exact setup_initial_orders_memKey cfg _ _ p h
    | quoteTick bid ask => exact h
    | fill e => exact on_order_filled_memKey s e p h
    | stop => exact h
    | doReset => exact absurd rfl hev
  · intro gps gos cp up t hf
    cases up with
    | true =>
      have hp := List.find?_some (by simpa [find_next_grid_price] using hf)
      rcases Bool.and_eq_true .. |>.mp hp with ⟨_, h2⟩
      simpa using h2
    | false =>
      have hp := List.find?_some (by simpa [find_next_grid_price] using hf)
      rcases Bool.and_eq_true .. |>.mp hp with ⟨_, h2⟩
      simpa using h2

/-- Witness for `grid_price_single_use` at a concrete state: the recorded
entry at price 100 survives a quote tick. -/
theorem grid_price_single_use_witness :
    memKey (gridStep c1cfg w1state (GridEvent.quoteTick 1 2)).grid_orders 100 = true :=
  grid_price_single_use.1 c1cfg w1state (GridEvent.quoteTick 1 2) 100
    (by simp) (by decide)

set_option maxRecDepth 2000

/-- Counterexample to C1 as stated: in the `c1` scenario the BUY at 100
fills while 110 — whose SELL was already filled, so no order is active
there — is the smallest grid price above 100 × 1.001 with no active order;
the claim therefore predicts a SELL at 110, but `on_order_filled` places
nothing at all, because 110 is still recorded in `grid_orders`. -/
theorem grid_buy_fill_active_counterexample :
    claimedNextPriceUp c1state.grid_prices
        (eraseKey c1state.active_orders c1fill.client_order_id)
        (c1fill.last_px * (1001/1000)) = some 110 ∧
      (on_order_filled c1state c1fill).submitted = c1state.submitted := by
  with_unfolding_all decide

/-- C1 (amended): for a BUY fill of quantity Q at price P handled by
`on_order_filled`, if `_find_next_grid_price` finds a target — the smallest
grid price strictly above P × 1.001 with no order recorded in `grid_orders`
— then the placed SELL has quantity exactly Q at that target; if no grid
price qualifies, no order is placed. -/
theorem grid_buy_fill_roundtrip (s : GridState) (e : FillEvent) (gp : ℚ)
    (hside : e.order_side = OrderSide.BUY)
    (hact : lookupD s.active_orders e.client_order_id = some gp)
    (hsorted : List.Pairwise (· ≤ ·) s.grid_prices)
    (hpx : 0 ≤ e.last_px) :
    (∀ t, find_next_grid_price s.grid_prices s.grid_orders e.last_px true = some t →
      (on_order_filled s e).submitted =
        s.submitted ++ [⟨OrderSide.SELL, e.last_qty, t, s.nextOrderId⟩] ∧
      t ∈ s.grid_prices ∧
      e.last_px * (1001/1000) < t ∧
      memKey s.grid_orders t = false ∧
      ∀ q ∈ s.grid_prices, e.last_px * (1001/1000) < q →
        memKey s.grid_orders q = false → t ≤ q) ∧
    (find_next_grid_price s.grid_prices s.grid_orders e.last_px true = none →
      (on_order_filled s e).submitted = s.submitted) := by
  constructor
  · intro t hf
    have hfind : s.grid_prices.find?
        (fun p => decide (e.last_px * (1001/1000) < p) && !(memKey s.grid_orders p)) =
        some t := by
      simpa [find_next_grid_price] using hf
    have hmem : t ∈ s.grid_prices := List.mem_of_find?_eq_some hfind
    have hpred := List.find?_some hfind
    rw [Bool.and_eq_true] at hpred
    obtain ⟨h1, h2⟩ := hpred
    have hlt : e.last_px * (1001/1000) < t := of_decide_eq_true h1
    have hnk : memKey s.grid_orders t = false := by simpa using h2
    have ht0 : (0:ℚ) < t :=
      lt_of_le_of_lt (mul_nonneg hpx (by norm_num)) hlt
    refine ⟨?_, hmem, hlt, hnk, ?_⟩
    · simp only [on_order_filled, hact, hside, hf, place_grid_order]
      rw [mul_div_assoc, div_self (ne_of_gt ht0), mul_one]
    · intro q hq hqlt hqnk
      have hpq : (fun p => decide (e.last_px * (1001/1000) < p) &&
          !(memKey s.grid_orders p)) q = true := by
        simp [hqlt, hqnk]
      rcases find?_pairwise_rel hsorted hfind q hq hpq with rfl | hle
      · exact le_refl t
      · exact hle
  · intro hf
    simp [on_order_filled, hact, hside, hf]

/-- Witness for `grid_buy_fill_roundtrip`: in `w1state` the BUY fill of
quantity 3 at 100 produces a SELL for quantity 3 at grid price 110. -/
theorem grid_buy_fill_roundtrip_witness :
    (on_order_filled w1state w1fill).submitted =
      w1state.submitted ++ [⟨OrderSide.SELL, 3, 110, 1⟩] := by
  have h := (grid_buy_fill_roundtrip w1state w1fill 100 rfl
    (by with_unfolding_all decide) (by with_unfolding_all decide)
    (by norm_num [w1fill])).1 110 (by with_unfolding_all decide)
  exact h.1

/-- Counterexample to C2 as stated: in the `c2` scenario the SELL at 120
fills with quantity 1, the replacement BUY lands at grid price 110, but its
quantity is `1 × 120 / 110 = 12/11 ≠ 1` — the source sizes the BUY from
`filled_qty * filled_price`, not from the target price, so the replacement
quantity differs from the filled quantity. -/
theorem grid_sell_fill_quantity_counterexample :
    (on_order_filled c2state c2fill).submitted =
      c2state.submitted ++ [⟨OrderSide.BUY, 12/11, 110, 2⟩] ∧
      c2fill.last_qty = 1 ∧ (12/11 : ℚ) ≠ 1 := by
  with_unfolding_all decide

/-- C2 (amended): for a SELL fill of quantity Q at price P handled by
`on_order_filled`, if `_find_next_grid_price` finds a target — the largest
grid price strictly below P × 0.999 with no order recorded in `grid_orders`
— then the placed BUY sits at that target with quantity Q × P / target
(not Q: the amount is `filled_qty * filled_price`); if no grid price
qualifies, no order is placed. -/
theorem grid_sell_fill_roundtrip (s : GridState) (e : FillEvent) (gp : ℚ)
    (hside : e.order_side = OrderSide.SELL)
    (hact : lookupD s.active_orders e.client_order_id = some gp)
    (hsorted : List.Pairwise (· ≤ ·) s.grid_prices) :
    (∀ t, find_next_grid_price s.grid_prices s.grid_orders e.last_px false = some t →
      (on_order_filled s e).submitted =
        s.submitted ++ [⟨OrderSide.BUY, e.last_qty * e.last_px / t, t, s.nextOrderId⟩] ∧
      t ∈ s.grid_prices ∧
      t < e.last_px * (999/1000) ∧
      memKey s.grid_orders t = false ∧
      ∀ q ∈ s.grid_prices, q < e.last_px * (999/1000) →
        memKey s.grid_orders q = false → q ≤ t) ∧
    (find_next_grid_price s.grid_prices s.grid_orders e.last_px false = none →
      (on_order_filled s e).submitted = s.submitted) := by
  constructor
  · intro t hf
    have hfind : s.grid_prices.reverse.find?
        (fun p => decide (p < e.last_px * (999/1000)) && !(memKey s.grid_orders p)) =
        some t := by
      simpa [find_next_grid_price] using hf
    have hmem : t ∈ s.grid_prices :=
      List.mem_reverse.mp (List.mem_of_find?_eq_some hfind)
    have hpred := List.find?_some hfind
    rw [Bool.and_eq_true] at hpred
    obtain ⟨h1, h2⟩ := hpred
    have hlt : t < e.last_px * (999/1000) := of_decide_eq_true h1
    have hnk : memKey s.grid_orders t = false := by simpa using h2
    refine ⟨?_, hmem, hlt, hnk, ?_⟩
    · simp only [on_order_filled, hact, hside, hf, place_grid_order]
    · intro q hq hqlt hqnk
      have hrev : s.grid_prices.reverse.Pairwise (fun a b => b ≤ a) := by
        rw [List.pairwise_reverse]
        exact hsorted
      have hpq : (fun p => decide (p < e.last_px * (999/1000)) &&
          !(memKey s.grid_orders p)) q = true := by
        simp [hqlt, hqnk]
      rcases find?_pairwise_rel hrev hfind q (List.mem_reverse.mpr hq) hpq with rfl | hle
      · exact le_refl t
      · exact hle
  · intro hf
    simp [on_order_filled, hact, hside, hf]

/-- Witness for `grid_sell_fill_roundtrip`: in `w2state` the SELL fill of
quantity 2 at 120 produces a BUY at grid price 110 for quantity
2 × 120 / 110. -/
theorem grid_sell_fill_roundtrip_witness :
    (on_order_filled w2state w2fill).submitted =
      w2state.submitted ++ [⟨OrderSide.BUY, 2 * 120 / 110, 110, 1⟩] := by
  have h := (grid_sell_fill_roundtrip w2state w2fill 120 rfl
    (by with_unfolding_all decide) (by with_unfolding_all decide)).1 110
    (by with_unfolding_all decide)
  exact h.1

/-- Counterexample to C3 as stated: "YES" is a confirmation input other
than exactly "yes", yet the launcher proceeds — its effect trace reaches
configuration loading — because the gate compares `confirm.lower()`
against "yes". -/
theorem mainnet_confirm_counterexample :
    ("YES" : String) ≠ "yes" ∧
      LaunchEffect.loadConfigFile ∈ launcherMain true "YES" true true := by
  with_unfolding_all decide

/-- C3 (amended): on the mainnet path, the launcher aborts — with only the
warning, prompt and cancellation message, and in particular no
configuration loading, no environment-variable lookup and no network work —
exactly when the lowercased confirmation input differs from "yes"; every
input lowercasing to "yes" (not only the exact string "yes") lets the
launch proceed. -/
theorem mainnet_confirm_gate (confirm : String) (configExists credsPresent : Bool) :
    (confirm.toLower ≠ "yes" →
      launcherMain true confirm configExists credsPresent =
        [LaunchEffect.warnMainnet, LaunchEffect.promptConfirm,
         LaunchEffect.printCancelled] ∧
      LaunchEffect.loadConfigFile ∉ launcherMain true confirm configExists credsPresent ∧
      LaunchEffect.lookupEnvVar ∉ launcherMain true confirm configExists credsPresent ∧
      LaunchEffect.networkRun ∉ launcherMain true confirm configExists credsPresent) ∧
    (confirm.toLower = "yes" →
      launcherMain true confirm configExists credsPresent =
        [LaunchEffect.warnMainnet, LaunchEffect.promptConfirm] ++
          launcherAfterConfirm configExists credsPresent) := by
  constructor
  · intro h
    have htrace : launcherMain true confirm configExists credsPresent =
        [LaunchEffect.warnMainnet, LaunchEffect.promptConfirm,
         LaunchEffect.printCancelled] := by
      simp [launcherMain, h]
    refine ⟨htrace, ?_, ?_, ?_⟩ <;> simp [htrace]
  · intro h
    simp [launcherMain, h]

/-- Witness for `mainnet_confirm_gate`: the input "no" aborts the launch
with the cancellation trace. -/
theorem mainnet_confirm_gate_witness :
    launcherMain true "no" true true =
      [LaunchEffect.warnMainnet, LaunchEffect.promptConfirm,
       LaunchEffect.printCancelled] :=
  ((mainnet_confirm_gate "no" true true).1 (by with_unfolding_all decide)).1

/-- Value at index `i < n` of `linspace lo hi n`. -/
theorem linspace_getD (lo hi : ℚ) (n i : ℕ) (h : i < n) :
    (linspace lo hi n).getD i 0 = lo + (hi - lo) * i / ((n : ℚ) - 1) := by
  rw [linspace, List.getD_eq_getElem _ _ (by simpa using h)]
  simp [List.getElem_map, List.getElem_range]

/-- C5: for every level count n ≥ 2 and bounds lo < hi, the arithmetic grid
price list has length n, starts at lo, ends at hi, is non-decreasing, and
every pair of consecutive elements differs by (hi − lo)/(n − 1); the same
list is the one `SimpleGridStrategy.on_start` computes. -/
theorem arithmetic_grid_properties (lo hi : ℚ) (n : ℕ) (ta : ℚ)
    (hn : 2 ≤ n) (hlt : lo < hi) :
    (calculate_grid_prices_arith lo hi n).length = n ∧
    (calculate_grid_prices_arith lo hi n).getD 0 0 = lo ∧
    (calculate_grid_prices_arith lo hi n).getD (n - 1) 0 = hi ∧
    List.Pairwise (· ≤ ·) (calculate_grid_prices_arith lo hi n) ∧
    (∀ i, i + 1 < n →
      (calculate_grid_prices_arith lo hi n).getD (i + 1) 0 -
        (calculate_grid_prices_arith lo hi n).getD i 0 = (hi - lo) / ((n : ℚ) - 1)) ∧
    (simple_on_start ⟨ta, hi, lo, n⟩).grid_prices = calculate_grid_prices_arith lo hi n := by
  have hd : (0:ℚ) < (n : ℚ) - 1 := by
    have : (2:ℚ) ≤ (n : ℚ) := by exact_mod_cast hn
    linarith
  have hd0 : ((n : ℚ) - 1) ≠ 0 := ne_of_gt hd
  have hc : (0:ℚ) ≤ hi - lo := le_of_lt (sub_pos.mpr hlt)
  refine ⟨?_, ?_, ?_, ?_, ?_, rfl⟩
  · simp only [calculate_grid_prices_arith, linspace, List.length_map, List.length_range]
  · rw [calculate_grid_prices_arith, linspace_getD lo hi n 0 (by omega)]
    simp
  · rw [calculate_grid_prices_arith, linspace_getD lo hi n (n - 1) (by omega)]
    have hcast : ((n - 1 : ℕ) : ℚ) = (n : ℚ) - 1 := by
      have : 1 ≤ n := by omega
      push_cast [this]
      ring
    rw [hcast, mul_div_assoc, div_self hd0, mul_one]
    ring
  · rw [calculate_grid_prices_arith, linspace, List.pairwise_map]
    refine List.Pairwise.imp ?_ (List.pairwise_lt_range n)
    intro i j hij
    have hij2 : (i : ℚ) ≤ (j : ℚ) := by exact_mod_cast le_of_lt hij
    have h1 : (hi - lo) * (i : ℚ) ≤ (hi - lo) * (j : ℚ) :=
      mul_le_mul_of_nonneg_left hij2 hc
    have h2 : (hi - lo) * (i : ℚ) / ((n : ℚ) - 1) ≤ (hi - lo) * (j : ℚ) / ((n : ℚ) - 1) :=
      (div_le_div_iff_of_pos_right hd).mpr h1
    linarith
  · intro i hi1
    rw [calculate_grid_prices_arith, linspace_getD lo hi n (i + 1) (by omega),
      linspace_getD lo hi n i (by omega)]
    push_cast
    field_simp
    ring

/-- Witness for `arithmetic_grid_properties` at lo = 0, hi = 10, n = 3. -/
theorem arithmetic_grid_properties_witness :
    (calculate_grid_prices_arith 0 10 3).length = 3 ∧
    (calculate_grid_prices_arith 0 10 3).getD 0 0 = 0 ∧
    (calculate_grid_prices_arith 0 10 3).getD (3 - 1) 0 = 10 ∧
    List.Pairwise (· ≤ ·) (calculate_grid_prices_arith 0 10 3) ∧
    (∀ i, i + 1 < 3 →
      (calculate_grid_prices_arith 0 10 3).getD (i + 1) 0 -
        (calculate_grid_prices_arith 0 10 3).getD i 0 = (10 - 0) / ((3 : ℚ) - 1)) ∧
    (simple_on_start ⟨1, 10, 0, 3⟩).grid_prices = calculate_grid_prices_arith 0 10 3 :=
  arithmetic_grid_properties 0 10 3 1 (by norm_num) (by norm_num)

/-- `_place_initial_orders` of the Simple Grid Strategy submits BUY orders
only. -/
theorem place_initial_orders_buy_only (cfg : SimpleGridStrategyConfig)
    (s : SimpleGridState) (bid ask : ℚ)
    (h : ∀ o ∈ s.submitted, o.side = OrderSide.BUY) :
    ∀ o ∈ (place_initial_orders cfg s bid ask).submitted, o.side = OrderSide.BUY := by
  simp only [place_initial_orders]
  generalize s.grid_prices = l
  induction l generalizing s with
  | nil => exact h
  | cons a l ih =>
    rw [List.foldl_cons]
    split_ifs with h1 h2
    · exact ih s h
    · refine ih _ ?_
      intro o ho
      rcases List.mem_append.mp ho with ho1 | ho2
      · exact h o ho1
      · rw [List.mem_singleton.mp ho2]
    · exact ih s h

/-- No Simple Grid lifecycle callback ever submits a non-BUY order. -/
theorem simpleStep_buy_only (cfg : SimpleGridStrategyConfig)
    (s : SimpleGridState) (ev : SimpleEvent)
    (h : ∀ o ∈ s.submitted, o.side = OrderSide.BUY) :
    ∀ o ∈ (simpleStep cfg s ev).submitted, o.side = OrderSide.BUY := by
  cases ev with
  | quote bid ask =>
    simp only [simpleStep, simple_on_quote_tick]
    split_ifs with hp
    · exact h
    · exact place_initial_orders_buy_only cfg _ bid ask h
  | fill e => exact h
  | stop => exact h
  | doReset => exact h

/-- Across any callback sequence the Simple Grid submission log stays
BUY-only. -/
theorem runSimple_buy_only_aux (cfg : SimpleGridStrategyConfig) :
    ∀ (evs : List SimpleEvent) (s : SimpleGridState),
      (∀ o ∈ s.submitted, o.side = OrderSide.BUY) →
      ∀ o ∈ (evs.foldl (simpleStep cfg) s).submitted, o.side = OrderSide.BUY := by
  intro evs
  induction evs with
  | nil => intro s h; exact h
  | cons ev evs ih =>
    intro s h
    rw [List.foldl_cons]
    exact ih _ (simpleStep_buy_only cfg s ev h)

/-- C6: with bounds [41500, 42500] and 5 levels the Simple Grid Strategy
computes grid prices [41500, 41750, 42000, 42250, 42500]; on a first quote
with mid price 42000 it submits exactly two BUY limit orders, at 41500 and
41750 (42000 falls inside the 10-unit buffer, the two upper levels are
above the mid); and under every sequence of quotes, fills, stops and
resets, every order it ever submits is a BUY. -/
theorem simple_grid_concrete_and_buy_only (ta : ℚ) (evs : List SimpleEvent) :
    (simple_on_start (c6cfg ta)).grid_prices = [41500, 41750, 42000, 42250, 42500] ∧
    (runSimple (c6cfg ta) [c6quote]).submitted =
      [⟨OrderSide.BUY, ta / 5 / 41500, 41500, 0⟩,
       ⟨OrderSide.BUY, ta / 5 / 41750, 41750, 1⟩] ∧
    ∀ o ∈ (runSimple (c6cfg ta) evs).submitted, o.side = OrderSide.BUY := by
  refine ⟨?_, ?_, ?_⟩
  · norm_num [simple_on_start, linspace, c6cfg, List.range_succ]
  · have hg : ({ simple_on_start (c6cfg ta) with orders_placed := true } :
        SimpleGridState).grid_prices = [41500, 41750, 42000, 42250, 42500] := by
      norm_num [simple_on_start, c6cfg, linspace, List.range_succ]
    rw [runSimple, List.foldl_cons, List.foldl_nil]
    show (simple_on_quote_tick (c6cfg ta) (simple_on_start (c6cfg ta))
      (83999/2) (84001/2)).submitted = _
    rw [simple_on_quote_tick]
    rw [if_neg (by norm_num [simple_on_start])]
    rw [place_initial_orders]
    rw [hg]
    rw [List.foldl_cons, List.foldl_cons, List.foldl_cons, List.foldl_cons,
      List.foldl_cons, List.foldl_nil]
    norm_num [simple_on_start, c6cfg]
  · exact runSimple_buy_only_aux (c6cfg ta) evs (simple_on_start (c6cfg ta))
      (by simp [simple_on_start])

/-- Witness for `simple_grid_concrete_and_buy_only` at capital 1000: the
first quote at mid 42000 yields exactly the two BUY orders. -/
theorem simple_grid_concrete_witness :
    (runSimple (c6cfg 1000) [c6quote]).submitted =
      [⟨OrderSide.BUY, 1000 / 5 / 41500, 41500, 0⟩,
       ⟨OrderSide.BUY, 1000 / 5 / 41750, 41750, 1⟩] :=
  (simple_grid_concrete_and_buy_only 1000 []).2.1

/-- C7: for symbol BTCUSDT with days = 1, whatever the random draws and
sinusoid samples, the constructed table (before the session-volatility
noise layer) has exactly floor(86400/30) + 1 = 2881 rows at 30-second
cadence spanning one day inclusive of both endpoints, and every row has
bid_price < ask_price, since bid = price − spread/2 and
ask = price + spread/2 with spread = 1. -/
theorem forex_btc_one_day (endSec : ℤ)
    (changes sinSamples bidSizes askSizes noiseBid noiseAsk : ℕ → ℚ) :
    (generate_forex_data "BTCUSDT" 1 endSec changes sinSamples bidSizes askSizes
      noiseBid noiseAsk).length = 2881 ∧
    (forexBaseRows "BTCUSDT" 1 endSec changes sinSamples bidSizes askSizes).length
      = 2881 ∧
    forexNumPoints 1 = 86400 / 30 + 1 ∧
    (∀ i, i < 2881 →
      ((forexBaseRows "BTCUSDT" 1 endSec changes sinSamples bidSizes askSizes).getD i
        ⟨0, 0, 0, 0, 0⟩).ts = endSec - 86400 + 30 * (i : ℤ)) ∧
    (∀ r ∈ forexBaseRows "BTCUSDT" 1 endSec changes sinSamples bidSizes askSizes,
      r.bid_price < r.ask_price) := by
  have hlen : (forexBaseRows "BTCUSDT" 1 endSec changes sinSamples bidSizes
      askSizes).length = 2881 := by
    simp [forexBaseRows, forexNumPoints]
  refine ⟨by simp [generate_forex_data, forexNumPoints], hlen, rfl, ?_, ?_⟩
  · intro i hi
    have hl : i < (forexBaseRows "BTCUSDT" 1 endSec changes sinSamples bidSizes
        askSizes).length := by rw [hlen]; exact hi
    rw [List.getD_eq_getElem _ _ hl]
    simp only [forexBaseRows, List.getElem_map, List.getElem_range, forexBaseRow]
    push_cast
    ring
  · intro r hr
    rcases List.mem_map.mp hr with ⟨i, _, rfl⟩
    simp only [forexBaseRow]
    rw [spreadOf, if_neg (by decide)]
    linarith

/-- Witness for `forex_btc_one_day` at endSec = 86400 with all-zero draws:
2881 rows, the first timestamped at 0 and the last at 86400. -/
theorem forex_btc_one_day_witness :
    (forexBaseRows "BTCUSDT" 1 86400 zeroSeq zeroSeq zeroSeq zeroSeq).length
      = 2881 ∧
    ((forexBaseRows "BTCUSDT" 1 86400 zeroSeq zeroSeq zeroSeq zeroSeq).getD 0
      ⟨0, 0, 0, 0, 0⟩).ts = 0 ∧
    ((forexBaseRows "BTCUSDT" 1 86400 zeroSeq zeroSeq zeroSeq zeroSeq).getD 2880
      ⟨0, 0, 0, 0, 0⟩).ts = 86400 := by
  have h := forex_btc_one_day 86400 zeroSeq zeroSeq zeroSeq zeroSeq zeroSeq zeroSeq
  refine ⟨h.2.1, ?_, ?_⟩
  · have := h.2.2.2.1 0 (by norm_num)
    simpa using this
  · have := h.2.2.2.1 2880 (by norm_num)
    rw [this]
    norm_num

/-- C9: the real-data backtest suggests grid bounds mean ± 1.5·std and then
uses upper = min(m + 1.5s, m + 500), lower = max(m − 1.5s, m − 500); at
mean 42000 and std 800 the bounds in use are [41500, 42500]. -/
theorem real_data_grid_bounds (mean std : ℚ) :
    suggestedBounds mean std = (mean - 3/2 * std, mean + 3/2 * std) ∧
    usedBounds mean std =
      (max (mean - 3/2 * std) (mean - 500), min (mean + 3/2 * std) (mean + 500)) ∧
    usedBounds 42000 800 = (41500, 42500) := by
  refine ⟨rfl, rfl, ?_⟩
  simp only [usedBounds, suggestedBounds, max_def, min_def]
  norm_num

/-- C8: in the multi-source downloader the four providers are attempted in
the fixed order CryptoCompare, CoinGecko, Kraken, Coinbase; a later one is
attempted only when every earlier one returned empty data or an error; the
chain halts with the first non-empty provider's converted data and then
persists the three output files; when all four fail, no file is written and
the remediation diagnostic is emitted. -/
theorem multi_source_fallback (cc : Option (List CryptoCompareRow))
    (cg : Option (List (ℤ × ℚ))) (kr : Option (List KrakenRow))
    (cb : Option (List CoinbaseRow)) :
    ((multi_source_main cc cg kr cb).attempted = [Provider.cryptocompare] ∨
     (multi_source_main cc cg kr cb).attempted =
       [Provider.cryptocompare, Provider.coingecko] ∨
     (multi_source_main cc cg kr cb).attempted =
       [Provider.cryptocompare, Provider.coingecko, Provider.kraken] ∨
     (multi_source_main cc cg kr cb).attempted =
       [Provider.cryptocompare, Provider.coingecko, Provider.kraken,
        Provider.coinbase]) ∧
    (truthy cc = true →
      (multi_source_main cc cg kr cb).attempted = [Provider.cryptocompare] ∧
      (multi_source_main cc cg kr cb).df =
        some (convert_cryptocompare_to_df (cc.getD []))) ∧
    (truthy cc = false → truthy cg = true →
      (multi_source_main cc cg kr cb).attempted =
        [Provider.cryptocompare, Provider.coingecko] ∧
      (multi_source_main cc cg kr cb).df =
        some (convert_coingecko_to_df (cg.getD []))) ∧
    (truthy cc = false → truthy cg = false → truthy kr = true →
      (multi_source_main cc cg kr cb).attempted =
        [Provider.cryptocompare, Provider.coingecko, Provider.kraken] ∧
      (multi_source_main cc cg kr cb).df =
        some (convert_kraken_to_df (kr.getD []))) ∧
    (truthy cc = false → truthy cg = false → truthy kr = false → truthy cb = true →
      (multi_source_main cc cg kr cb).attempted =
        [Provider.cryptocompare, Provider.coingecko, Provider.kraken,
         Provider.coinbase] ∧
      (multi_source_main cc cg kr cb).df =
        some (convert_coinbase_to_df (cb.getD []))) ∧
    (truthy cc = false → truthy cg = false → truthy kr = false → truthy cb = false →
      (multi_source_main cc cg kr cb).df = none ∧
      (multi_source_main cc cg kr cb).written = [] ∧
      (multi_source_main cc cg kr cb).diagnostic = true) ∧
    (∀ df, (multi_source_main cc cg kr cb).df = some df →
      df ≠ [] ∧ (multi_source_main cc cg kr cb).written = outputPaths ∧
      (multi_source_main cc cg kr cb).diagnostic = false) := by
  cases hcc : truthy cc with
  | true =>
    rcases cc with _ | lcc
    · exact absurd hcc (by simp [truthy])
    · have hne : lcc ≠ [] := by simpa [truthy] using hcc
      have hconv : convert_cryptocompare_to_df lcc ≠ [] := by
        simp [convert_cryptocompare_to_df, hne]
      have hmain : multi_source_main (some lcc) cg kr cb =
          ⟨[Provider.cryptocompare], some (convert_cryptocompare_to_df lcc),
            outputPaths, false⟩ := by
        rw [multi_source_main, if_pos hcc, finishDownload,
          if_neg (by simpa [List.isEmpty_iff] using hconv)]
        simp
      simp [hmain, hcc, hconv]
  | false =>
    cases hcg : truthy cg with
    | true =>
      rcases cg with _ | lcg
      · exact absurd hcg (by simp [truthy])
      · have hne : lcg ≠ [] := by simpa [truthy] using hcg
        have hconv : convert_coingecko_to_df lcg ≠ [] := by
          simp [convert_coingecko_to_df, hne]
        have hmain : multi_source_main cc (some lcg) kr cb =
            ⟨[Provider.cryptocompare, Provider.coingecko],
              some (convert_coingecko_to_df lcg), outputPaths, false⟩ := by
          rw [multi_source_main, if_neg (by simp [hcc]), if_pos hcg, finishDownload,
            if_neg (by simpa [List.isEmpty_iff] using hconv)]
          simp
        simp [hmain, hcc, hcg, hconv]
    | false =>
      cases hkr : truthy kr with
      | true =>
        rcases kr with _ | lkr
        · exact absurd hkr (by simp [truthy])
        · have hne : lkr ≠ [] := by simpa [truthy] using hkr
          have hconv : convert_kraken_to_df lkr ≠ [] := by
            simp [convert_kraken_to_df, hne]
          have hmain : multi_source_main cc cg (some lkr) cb =
              ⟨[Provider.cryptocompare, Provider.coingecko, Provider.kraken],
                some (convert_kraken_to_df lkr), outputPaths, false⟩ := by
            rw [multi_source_main, if_neg (by simp [hcc]), if_neg (by simp [hcg]),
              if_pos hkr, finishDownload,
              if_neg (by simpa [List.isEmpty_iff] using hconv)]
            simp
          simp [hmain, hcc, hcg, hkr, hconv]
      | false =>
        cases hcb : truthy cb with
        | true =>
          rcases cb with _ | lcb
          · exact absurd hcb (by simp [truthy])
          · have hne : lcb ≠ [] := by simpa [truthy] using hcb
            have hconv : convert_coinbase_to_df lcb ≠ [] := by
              simp [convert_coinbase_to_df, hne]
            have hmain : multi_source_main cc cg kr (some lcb) =
                ⟨[Provider.cryptocompare, Provider.coingecko, Provider.kraken,
                  Provider.coinbase],
                  some (convert_coinbase_to_df lcb), outputPaths, false⟩ := by
              rw [multi_source_main, if_neg (by simp [hcc]), if_neg (by simp [hcg]),
                if_neg (by simp [hkr]), if_pos hcb, finishDownload,
                if_neg (by simpa [List.isEmpty_iff] using hconv)]
              simp
            simp [hmain, hcc, hcg, hkr, hcb, hconv]
        | false =>
          have hmain : multi_source_main cc cg kr cb =
              ⟨[Provider.cryptocompare, Provider.coingecko, Provider.kraken,
                Provider.coinbase], none, [], true⟩ := by
            rw [multi_source_main, if_neg (by simp [hcc]), if_neg (by simp [hcg]),
              if_neg (by simp [hkr]), if_neg (by simp [hcb])]
          simp [hmain, hcc, hcg, hkr, hcb]

/-- Witness for `multi_source_fallback`: with CryptoCompare returning one
row and every other provider failing, only CryptoCompare is attempted and
the three output files are written; with all four failing, nothing is
written and the diagnostic is shown. -/
theorem multi_source_fallback_witness :
    (multi_source_main (some [ccRow0]) none none none).attempted =
      [Provider.cryptocompare] ∧
    (multi_source_main (some [ccRow0]) none none none).written = outputPaths ∧
    (multi_source_main none none none none).written = [] ∧
    (multi_source_main none none none none).diagnostic = true := by
  have h1 := (multi_source_fallback (some [ccRow0]) none none none).2.1 (by decide)
  have h2 := (multi_source_fallback (some [ccRow0]) none none none).2.2.2.2.2.2
    (convert_cryptocompare_to_df [ccRow0]) (by simpa using h1.2)
  have h3 := (multi_source_fallback none none none none).2.2.2.2.2.1
    (by decide) (by decide) (by decide) (by decide)
  exact ⟨h1.1, h2.2.1, h3.2.1, h3.2.2⟩

end Trade0
